import Mathlib

/-!
Verification of the myTangerine incremental-order extraction and
label-rendering pipeline, as implemented in:

  * src/handlers/order_processor.py   (OrderProcessor)
  * src/handlers/sheet_handler.py     (GoogleSheetHandler)
  * src/handlers/mongo_handler.py     (MongoDBHandler)
  * src/formatters/label_formatter.py (LabelFormatter)
  * src/main.py                       (OrderManagementSystem)
  * src/config/config.py              (Config)

The Python code is embedded shallowly: each Python function becomes a
Lean function over explicit data; the mutable handler state (the stored
row numbers, the running totals) is threaded explicitly.  Cell values
coming out of the spreadsheet are modelled as `String` (gspread's
`get_all_records` yields strings for text cells); a pandas NaN cell is
modelled as `none` in an `Option String` field.
-/

/-- The sentinel marker value written into the '비고' column. -/
def sentinel : String := "확인"

/-- '박스' suffix used in product lines of the label report. -/
def box_str : String := "박스"

def hyphen_str : String := "-"

def empty_str : String := ""

def zero_str : String := "0"

def ten_str : String := "10"

def o10_str : String := "010"

/-! ## OrderProcessor.format_phone_number
    (src/handlers/order_processor.py lines 20-36) -/

/-- Python `str.strip()`: drop leading and trailing whitespace. -/
def pyStrip (s : String) : String :=
  String.mk (((s.data.dropWhile Char.isWhitespace).reverse.dropWhile Char.isWhitespace).reverse)

/-- Python `str.startswith(pre)`. -/
def pyStartsWith (s pre : String) : Bool :=
  pre.data.isPrefixOf s.data

/-- Python slice `s[:n]`. -/
def pyTake (s : String) (n : Nat) : String :=
  String.mk (s.data.take n)

/-- Python slice `s[n:]`. -/
def pyDrop (s : String) (n : Nat) : String :=
  String.mk (s.data.drop n)

/-- `''.join(filter(str.isdigit, str(phone)))`: keep only digit characters. -/
def digitsOnly (s : String) : String :=
  String.mk (s.data.filter Char.isDigit)

/-- Number of occurrences of `-` in the string (`str.count('-')`). -/
def hyphenCount (s : String) : Nat :=
  (s.data.filter (fun c => c == '-')).length

/-- `str(phone).replace('-', '')`. -/
def stripHyphens (s : String) : String :=
  String.mk (s.data.filter (fun c => c != '-'))

/-- Shallow embedding of `OrderProcessor.format_phone_number`
(src/handlers/order_processor.py lines 20-36).  The input is the
`str()` image of the cell; `pd.isna` is always false on a string, so
the first guard reduces to the blank test. -/
def format_phone_number (phone : String) : String :=
  if pyStrip phone = empty_str then empty_str
  else
    let numbers_only := digitsOnly phone
    let numbers_only :=
      if numbers_only.length = 10 ∧ pyStartsWith numbers_only ten_str then
        zero_str ++ numbers_only
      else numbers_only
    if numbers_only.length = 11 ∧ pyStartsWith numbers_only o10_str then
      pyTake numbers_only 3 ++ hyphen_str ++ pyTake (pyDrop numbers_only 3) 4
        ++ hyphen_str ++ pyDrop numbers_only 7
    else if (stripHyphens phone).length = 11 ∧ hyphenCount phone = 2 then
      phone
    else
      phone

/-! ## OrderProcessor.get_quantity
    (src/handlers/order_processor.py lines 38-55) -/

/-- `int(''.join(filter(str.isdigit, qty)))` — the digits of the string
read as a decimal number (always defined here because the caller guards
on the presence of at least one digit). -/
def digitsToNat (s : String) : Nat :=
  (s.data.filter Char.isDigit).foldl (fun n c => n * 10 + (c.toNat - '0'.toNat)) 0

/-- `any(char.isdigit() for char in qty)`. -/
def hasDigit (s : String) : Bool :=
  s.data.any Char.isDigit

/-- A calendar date (the value of `timestamp.dt.date`). -/
structure Date where
  year : Nat
  month : Nat
  day : Nat
deriving DecidableEq, Repr

/-- Numeric sort key of a date. -/
def Date.key (d : Date) : Nat := d.year * 10000 + d.month * 100 + d.day

/-- A parsed timestamp ('타임스탬프' after `_parse_korean_timestamp`):
a date plus the second-of-day. -/
structure Timestamp where
  date : Date
  time : Nat
deriving DecidableEq, Repr

/-- Numeric sort key of a timestamp (date-major, seconds within day < 100000). -/
def Timestamp.key (t : Timestamp) : Nat := t.date.key * 100000 + t.time

/-- One data row of the order table, after timestamp parsing.  Field
names transliterate the Korean column headers used by the code:
`timestamp` ↔ '타임스탬프', `bigo` ↔ '비고' (the marker column),
`senderName/senderAddr/senderPhone` ↔ '보내는분 성함' / '보내는분 주소
(도로명 주소로 부탁드려요)' / '보내는분 연락처 (핸드폰번호)',
`recipName/recipAddr/recipPhone` ↔ the corresponding '받으실분' columns,
`productSelection` ↔ '상품 선택', and `qty5/qty10` ↔ '5kg 수량' /
'10kg 수량' (`none` models a NaN cell, `some s` the `str()` image). -/
structure Row where
  timestamp : Timestamp
  bigo : String
  senderName : String
  senderAddr : String
  senderPhone : String
  recipName : String
  recipAddr : String
  recipPhone : String
  productSelection : String
  qty5 : Option String
  qty10 : Option String
deriving DecidableEq, Repr

/-- Shallow embedding of `OrderProcessor.get_quantity`
(src/handlers/order_processor.py lines 38-55).  Python control flow:
the `elif` on the 10kg field is evaluated only when the guard
`pd.notna(row['5kg 수량']) and str(row['5kg 수량']).strip()` is false;
when that guard is true but the field has no digit character, control
falls past the `elif` straight to `return 1`. -/
def get_quantity (row : Row) : Nat :=
  match row.qty5 with
  | some q5 =>
      if pyStrip q5 ≠ empty_str then
        if hasDigit q5 then digitsToNat q5 else 1
      else
        match row.qty10 with
        | some q10 =>
            if pyStrip q10 ≠ empty_str then
              if hasDigit q10 then digitsToNat q10 else 1
            else 1
        | none => 1
  | none =>
      match row.qty10 with
      | some q10 =>
          if pyStrip q10 ≠ empty_str then
            if hasDigit q10 then digitsToNat q10 else 1
          else 1
      | none => 1

/-! ## Claim C7: format_phone_number input/output pairs -/

/-- C7: `format_phone_number` satisfies each specified pair:
"1098765432" ↦ "010-9876-5432", "01012345678" ↦ "010-1234-5678",
"010-1234-5678" unchanged, "0201234567" unchanged, blank input ↦ "",
and any input on which the 010-formatting rule does not fire is
returned verbatim. -/
theorem claim7_format_phone_number_cases :
    format_phone_number "1098765432" = "010-9876-5432"
    ∧ format_phone_number "01012345678" = "010-1234-5678"
    ∧ format_phone_number "010-1234-5678" = "010-1234-5678"
    ∧ format_phone_number "0201234567" = "0201234567"
    ∧ (∀ s : String, pyStrip s = empty_str → format_phone_number s = empty_str)
    ∧ (∀ s : String, pyStrip s ≠ empty_str →
        (¬ ((digitsOnly s).length = 10 ∧ pyStartsWith (digitsOnly s) ten_str)) →
        (¬ ((digitsOnly s).length = 11 ∧ pyStartsWith (digitsOnly s) o10_str)) →
        format_phone_number s = s) := by
  refine ⟨by decide, by decide, by decide, by decide, ?_, ?_⟩
  · intro s hs
    simp [format_phone_number, hs]
  · intro s hs h10 h11
    simp only [format_phone_number, if_neg hs]
    rw [if_neg h10, if_neg h11]
    split <;> rfl

/-- Witness for C7 at the concrete inputs "" and "hello": the blank rule
and the fall-through rule are applied at explicit inputs. -/
theorem claim7_format_phone_number_cases_witness :
    format_phone_number "" = "" ∧ format_phone_number "hello" = "hello" :=
  ⟨claim7_format_phone_number_cases.2.2.2.2.1 "" (by decide),
   claim7_format_phone_number_cases.2.2.2.2.2 "hello" (by decide) (by decide) (by decide)⟩

/-! ## Claim C4: the 10kg fallback -/

/-- A concrete row: 5kg quantity cell holds digit-free text, 10kg
quantity cell holds "7". -/
def rowC4 : Row :=
  { timestamp := ⟨⟨2024, 1, 1⟩, 0⟩
    bigo := ""
    senderName := "a", senderAddr := "b", senderPhone := "c"
    recipName := "d", recipAddr := "e", recipPhone := "f"
    productSelection := "5kg"
    qty5 := some "x"
    qty10 := some "7" }

/-- C4 counterexample: the claim says a row whose 5kg field is present,
non-blank and digit-free resolves to the 10kg field's value (7 here);
the code returns the default 1 instead, because the `elif` on the 10kg
field is skipped once the 5kg guard was true. -/
theorem claim4_counterexample : ¬ (get_quantity rowC4 = 7) := by decide

/-- C4 (amended): for every row whose 5kg quantity field is present and
non-blank but contains no digit character, `get_quantity` returns the
default 1 without consulting the 10kg field (whatever it holds). -/
theorem claim4_quantity_default_on_digitfree_5kg (row : Row) (q5 : String)
    (hq : row.qty5 = some q5) (hblank : pyStrip q5 ≠ empty_str)
    (hdigit : hasDigit q5 = false) :
    get_quantity row = 1 := by
  simp [get_quantity, hq, hblank, hdigit]

/-- Witness for the amended C4 at the concrete row `rowC4`. -/
theorem claim4_quantity_default_on_digitfree_5kg_witness :
    get_quantity rowC4 = 1 :=
  claim4_quantity_default_on_digitfree_5kg rowC4 "x" (by decide) (by decide) (by decide)

/-! ## GoogleSheetHandler.get_new_orders
    (src/handlers/sheet_handler.py lines 68-98)

The checkpoint logic of lines 84-88:
```
last_confirmed_idx = df[df['비고'] == '확인'].index[-1]
                       if not df[df['비고'] == '확인'].empty else -1
new_orders_df = df.iloc[last_confirmed_idx + 1:]
self.new_order_rows = [idx + 2 for idx in new_orders_df.index]
```
The DataFrame is modelled as a `List Row` with its default integer
index `0, 1, …`. -/

/-- `row['비고'] == '확인'` — the exact string comparison against the sentinel. -/
def isConfirmed (r : Row) : Bool := r.bigo == sentinel

/-- `df[df['비고'] == '확인'].index` — the ascending list of indices of
the rows whose marker equals the sentinel. -/
def confirmed_index : List Row → List Nat
  | [] => []
  | r :: rs =>
      if isConfirmed r then 0 :: (confirmed_index rs).map (· + 1)
      else (confirmed_index rs).map (· + 1)

/-- `df[df['비고'] == '확인'].index[-1] if … else -1`. -/
def last_confirmed_idx (rows : List Row) : Int :=
  ((confirmed_index rows).map Int.ofNat).getLastD (-1)

/-- The position `last_confirmed_idx + 1` where the new slice starts. -/
def newStart (rows : List Row) : Nat :=
  (last_confirmed_idx rows + 1).toNat

/-- `new_orders_df = df.iloc[last_confirmed_idx + 1:]`. -/
def get_new_orders (rows : List Row) : List Row :=
  rows.drop (newStart rows)

/-- `self.new_order_rows = [idx + 2 for idx in new_orders_df.index]` —
the absolute spreadsheet row numbers (data index + 2 for the header row)
remembered for `mark_orders_as_confirmed`. -/
def new_order_rows (rows : List Row) : List Nat :=
  (List.range' (newStart rows) (rows.length - newStart rows)).map (· + 2)

lemma confirmed_index_eq_nil (rows : List Row) :
    confirmed_index rows = [] ↔ rows.all (fun r => !isConfirmed r) = true := by
  induction rows with
  | nil => simp [confirmed_index]
  | cons r rs ih =>
      cases h : isConfirmed r with
      | true => simp [confirmed_index, h]
      | false => simp [confirmed_index, h, ih]

lemma getLastD_intofnat_nonneg (l : List Nat) (a : Nat) :
    ∃ m : Nat, (l.map Int.ofNat).getLastD (Int.ofNat a) = (m : Int) := by
  induction l generalizing a with
  | nil => exact ⟨a, rfl⟩
  | cons b bs ih =>
      rw [List.map_cons, List.getLastD_cons]
      exact ih b

lemma getLastD_intofnat_map_succ (l : List Nat) (a : Nat) :
    ((l.map (· + 1)).map Int.ofNat).getLastD (Int.ofNat (a + 1))
      = (l.map Int.ofNat).getLastD (Int.ofNat a) + 1 := by
  induction l generalizing a with
  | nil => simp
  | cons b bs ih =>
      simp only [List.map_cons, List.getLastD_cons]
      exact ih b

lemma last_confirmed_idx_cons (r : Row) (rs : List Row) :
    last_confirmed_idx (r :: rs) =
      if confirmed_index rs = [] then (if isConfirmed r then 0 else -1)
      else last_confirmed_idx rs + 1 := by
  unfold last_confirmed_idx
  cases hr : isConfirmed r <;> cases hcs : confirmed_index rs
  · simp [confirmed_index, hr, hcs]
  · rename_i a as
    simp only [confirmed_index, hr, Bool.false_eq_true, if_false, hcs, List.map_cons,
      List.getLastD_cons, List.cons_ne_nil, if_neg (List.cons_ne_nil a as)]
    exact getLastD_intofnat_map_succ as a
  · simp [confirmed_index, hr, hcs]
  · rename_i a as
    simp only [confirmed_index, hr, if_true, hcs, List.map_cons, List.getLastD_cons,
      List.cons_ne_nil, if_neg (List.cons_ne_nil a as)]
    exact getLastD_intofnat_map_succ as a

lemma last_confirmed_idx_nonneg (rows : List Row) (h : confirmed_index rows ≠ []) :
    ∃ m : Nat, last_confirmed_idx rows = (m : Int) := by
  unfold last_confirmed_idx
  cases hcs : confirmed_index rows with
  | nil => exact absurd hcs h
  | cons a as =>
      rw [List.map_cons, List.getLastD_cons]
      exact getLastD_intofnat_nonneg as a

lemma newStart_eq_zero (rows : List Row) :
    newStart rows = 0 ↔ confirmed_index rows = [] := by
  constructor
  · intro hz
    by_contra hc
    obtain ⟨m, hm⟩ := last_confirmed_idx_nonneg rows hc
    unfold newStart at hz
    rw [hm] at hz
    omega
  · intro hc
    simp [newStart, last_confirmed_idx, hc]

lemma newStart_cons (r : Row) (rs : List Row) :
    newStart (r :: rs) =
      if confirmed_index rs = [] then (if isConfirmed r then 1 else 0)
      else newStart rs + 1 := by
  unfold newStart
  rw [last_confirmed_idx_cons]
  by_cases hcs : confirmed_index rs = []
  · cases hr : isConfirmed r <;> simp [hcs, hr]
  · obtain ⟨m, hm⟩ := last_confirmed_idx_nonneg rs hcs
    simp only [if_neg hcs, hm]
    omega

lemma newStart_le_length (rows : List Row) : newStart rows ≤ rows.length := by
  induction rows with
  | nil => simp [newStart, last_confirmed_idx, confirmed_index]
  | cons r rs ih =>
      rw [newStart_cons]
      by_cases hc : confirmed_index rs = []
      · cases hr : isConfirmed r <;> simp [hc, hr]
      · simp only [if_neg hc, List.length_cons]
        omega

/-- The slice returned by `get_new_orders` contains no sentinel-marked row. -/
lemma drop_newStart_clean (rows : List Row) :
    (rows.drop (newStart rows)).all (fun r => !isConfirmed r) = true := by
  induction rows with
  | nil => simp
  | cons r rs ih =>
      rw [newStart_cons]
      by_cases hc : confirmed_index rs = []
      · cases hr : isConfirmed r with
        | true => simpa [hc, hr] using (confirmed_index_eq_nil rs).mp hc
        | false =>
            simp only [hc, if_true, hr, Bool.false_eq_true, if_false, List.drop_zero,
              List.all_cons, Bool.not_false, Bool.true_and]
            exact (confirmed_index_eq_nil rs).mp hc
      · simpa [hc] using ih

/-- When the checkpoint is positive, the row right before the slice start
is sentinel-marked. -/
lemma newStart_boundary (rows : List Row) (h : newStart rows ≠ 0) :
    ∃ r : Row, rows[newStart rows - 1]? = some r ∧ isConfirmed r = true := by
  induction rows with
  | nil => simp [newStart, last_confirmed_idx, confirmed_index] at h
  | cons r rs ih =>
      rw [newStart_cons] at h ⊢
      by_cases hc : confirmed_index rs = []
      · cases hr : isConfirmed r with
        | true =>
            refine ⟨r, ?_, hr⟩
            simp [hc, hr]
        | false => simp [hc, hr] at h
      · simp only [if_neg hc] at h ⊢
        have hns : newStart rs ≠ 0 := by
          intro h0
          exact hc ((newStart_eq_zero rs).mp h0)
        obtain ⟨x, hx, hxc⟩ := ih hns
        refine ⟨x, ?_, hxc⟩
        have heq : newStart rs + 1 - 1 = (newStart rs - 1) + 1 := by omega
        rw [heq, List.getElem?_cons_succ]
        exact hx

/-- Generic threshold shape: filtering `range` through a predicate that
holds exactly from index `k` on yields `l.drop k`. -/
lemma filterMap_range_if_threshold {α : Type} (l : List α) (p : Nat → Bool) (k : Nat)
    (hp : ∀ i, p i = true ↔ k ≤ i) :
    (List.range l.length).filterMap (fun i => if p i then l[i]? else none) = l.drop k := by
  induction l generalizing p k with
  | nil => simp
  | cons a l ih =>
      rw [List.length_cons, List.range_succ_eq_map, List.filterMap_cons, List.filterMap_map]
      have hcomp : ∀ i : Nat,
          ((fun i => if p i then (a :: l)[i]? else none) ∘ Nat.succ) i
            = (fun i => if p (i + 1) then l[i]? else none) i := by
        intro i
        simp [Function.comp, List.getElem?_cons_succ]
      rw [funext hcomp]
      cases hk : k with
      | zero =>
          have hp0 : p 0 = true := (hp 0).mpr (by omega)
          have htail := ih (fun i => p (i + 1)) 0
            (by intro i; rw [hp (i + 1)]; omega)
          simp only [hp0, if_true, List.getElem?_cons_zero]
          rw [htail]
          simp
      | succ k0 =>
          have hp0 : p 0 = false := by
            cases h0 : p 0 with
            | true => exact absurd ((hp 0).mp h0) (by omega)
            | false => rfl
          have htail := ih (fun i => p (i + 1)) k0
            (by intro i; rw [hp (i + 1)]; omega)
          simp only [hp0, Bool.false_eq_true, if_false]
          rw [htail]
          simp

/-- The drop-suffix from any index at or past the checkpoint is clean. -/
lemma clean_of_newStart_le (rows : List Row) (i : Nat) (h : newStart rows ≤ i) :
    (rows.drop i).all (fun r => !isConfirmed r) = true := by
  have hclean := drop_newStart_clean rows
  rw [List.all_eq_true] at hclean ⊢
  intro x hx
  apply hclean
  have hsub : (rows.drop i).Sublist (rows.drop (newStart rows)) := by
    have hdd := List.drop_drop (i - newStart rows) (newStart rows) rows
    have heq : newStart rows + (i - newStart rows) = i := by omega
    rw [heq] at hdd
    rw [← hdd]
    exact List.drop_sublist _ _
  exact hsub.subset hx

/-- Strictly before the checkpoint, the drop-suffix still contains the
sentinel row at position `newStart rows - 1`, so it is not clean. -/
lemma not_clean_of_lt_newStart (rows : List Row) (i : Nat) (h : i < newStart rows) :
    ¬ ((rows.drop i).all (fun r => !isConfirmed r) = true) := by
  intro hall
  have hns : newStart rows ≠ 0 := by omega
  obtain ⟨r, hr, hrc⟩ := newStart_boundary rows hns
  have hmem : r ∈ rows.drop i := by
    have hidx : (rows.drop i)[newStart rows - 1 - i]? = some r := by
      rw [List.getElem?_drop]
      have : i + (newStart rows - 1 - i) = newStart rows - 1 := by omega
      rw [this]
      exact hr
    exact List.getElem?_mem hidx
  rw [List.all_eq_true] at hall
  have := hall r hmem
  rw [hrc] at this
  simp at this

/-- C1: `get_new_orders` returns exactly the rows whose index is
strictly greater than the index of the last sentinel-marked row — the
rows at exactly those indices `i` for which no row at index `≥ i`
carries the sentinel (all rows when no row carries it), in the original
order. -/
theorem claim1_get_new_orders_after_last_sentinel (rows : List Row) :
    get_new_orders rows
      = (List.range rows.length).filterMap
          (fun i => if (rows.drop i).all (fun r => !isConfirmed r) then rows[i]? else none) := by
  unfold get_new_orders
  rw [filterMap_range_if_threshold rows _ (newStart rows)]
  intro i
  constructor
  · intro hclean
    by_contra hlt
    exact not_clean_of_lt_newStart rows i (by omega) hclean
  · exact clean_of_newStart_le rows i

/-! ## GoogleSheetHandler.mark_orders_as_confirmed
    (src/handlers/sheet_handler.py lines 100-128)

`mark_orders_as_confirmed` walks `self.new_order_rows` in order and
writes the sentinel into the '비고' cell of each stored absolute row
number (`self.sheet.update_cell(row_num, 비고_col, '확인')`).  A partial
commit failure after `m` successful writes therefore leaves exactly the
first `m` stored rows marked; `mark_orders_as_confirmed_upto rows m`
models the table state after those writes (the full successful commit is
the case `m = (new_order_rows rows).length`). -/

/-- Writing the sentinel into the marker cell of one row. -/
def set_confirmed (r : Row) : Row := { r with bigo := sentinel }

/-- `self.sheet.update_cell(row_num, 비고_col, '확인')` — absolute sheet
row `row_num` is data index `row_num - 2` (one-based rows plus header). -/
def update_cell_mark (rows : List Row) (row_num : Nat) : List Row :=
  match rows[row_num - 2]? with
  | some r => rows.set (row_num - 2) (set_confirmed r)
  | none => rows

/-- The table after the first `m` iterations of the update loop of
`mark_orders_as_confirmed` succeeded. -/
def mark_orders_as_confirmed_upto (rows : List Row) (m : Nat) : List Row :=
  ((new_order_rows rows).take m).foldl update_cell_mark rows

/-- The table after a fully successful `mark_orders_as_confirmed`. -/
def mark_orders_as_confirmed (rows : List Row) : List Row :=
  (new_order_rows rows).foldl update_cell_mark rows

lemma update_cell_mark_getElem? (rows : List Row) (t j : Nat) :
    (update_cell_mark rows t)[j]?
      = if t - 2 = j then (rows[j]?).map set_confirmed else rows[j]? := by
  unfold update_cell_mark
  cases ht : rows[t - 2]? with
  | none =>
      by_cases hj : t - 2 = j
      · subst hj
        rw [ht]
        simp
      · simp [hj]
  | some r =>
      rw [List.getElem?_set]
      by_cases hj : t - 2 = j
      · subst hj
        have hlt : t - 2 < rows.length := by
          by_contra hge
          rw [List.getElem?_eq_none (by omega)] at ht
          exact Option.noConfusion ht
        simp [hlt, ht]
      · simp [hj]

lemma take_range' (m : Nat) : ∀ (s n : Nat),
    (List.range' s n).take m = List.range' s (min m n) := by
  induction m with
  | zero => intro s n; simp
  | succ m ih =>
      intro s n
      cases n with
      | zero => simp
      | succ n =>
          rw [List.range'_succ, List.take_succ_cons, ih (s + 1) n,
            Nat.succ_min_succ, List.range'_succ]

lemma foldl_mark_getElem? (m : Nat) : ∀ (s : Nat) (rows : List Row) (j : Nat),
    (((List.range' s m).map (· + 2)).foldl update_cell_mark rows)[j]?
      = if s ≤ j ∧ j < s + m then (rows[j]?).map set_confirmed else rows[j]? := by
  induction m with
  | zero =>
      intro s rows j
      rw [if_neg (by omega)]
      exact rfl
  | succ m ih =>
      intro s rows j
      rw [List.range'_succ, List.map_cons, List.foldl_cons, ih (s + 1)]
      rw [update_cell_mark_getElem?]
      have ht : s + 2 - 2 = s := by omega
      rw [ht]
      by_cases hj : s = j
      · subst hj
        rw [if_neg (by omega : ¬ (s + 1 ≤ s ∧ s < s + 1 + m)), if_pos rfl,
          if_pos (by omega : s ≤ s ∧ s < s + (m + 1))]
      · by_cases hin : s + 1 ≤ j ∧ j < s + 1 + m
        · rw [if_pos hin, if_neg hj, if_pos (by omega : s ≤ j ∧ j < s + (m + 1))]
        · rw [if_neg hin, if_neg hj, if_neg (by omega : ¬ (s ≤ j ∧ j < s + (m + 1)))]

lemma mark_upto_getElem? (rows : List Row) (m : Nat)
    (hm : m ≤ (get_new_orders rows).length) (j : Nat) :
    (mark_orders_as_confirmed_upto rows m)[j]?
      = if newStart rows ≤ j ∧ j < newStart rows + m then (rows[j]?).map set_confirmed
        else rows[j]? := by
  unfold mark_orders_as_confirmed_upto new_order_rows
  rw [← List.map_take, take_range']
  have hmin : min m (rows.length - newStart rows) = m := by
    have := hm
    unfold get_new_orders at this
    rw [List.length_drop] at this
    omega
  rw [hmin]
  exact foldl_mark_getElem? m (newStart rows) rows j

/-- Uniqueness of the checkpoint: any position that is clean after it
and sentinel-marked right before it is `newStart`. -/
lemma newStart_unique (rows : List Row) (k : Nat) (hk : k ≤ rows.length)
    (hclean : (rows.drop k).all (fun r => !isConfirmed r) = true)
    (hb : k = 0 ∨ ∃ r, rows[k - 1]? = some r ∧ isConfirmed r = true) :
    newStart rows = k := by
  rcases Nat.lt_trichotomy (newStart rows) k with h | h | h
  · rcases hb with rfl | ⟨r, hr, hrc⟩
    · omega
    · exfalso
      have hmem : r ∈ rows.drop (newStart rows) := by
        have hidx : (rows.drop (newStart rows))[k - 1 - newStart rows]? = some r := by
          rw [List.getElem?_drop]
          have heq : newStart rows + (k - 1 - newStart rows) = k - 1 := by omega
          rw [heq]
          exact hr
        exact List.getElem?_mem hidx
      have hall := drop_newStart_clean rows
      rw [List.all_eq_true] at hall
      have hfalse := hall r hmem
      rw [hrc] at hfalse
      simp at hfalse
  · exact h
  · exfalso
    have hns : newStart rows ≠ 0 := by omega
    obtain ⟨r, hr, hrc⟩ := newStart_boundary rows hns
    have hmem : r ∈ rows.drop k := by
      have hidx : (rows.drop k)[newStart rows - 1 - k]? = some r := by
        rw [List.getElem?_drop]
        have heq : k + (newStart rows - 1 - k) = newStart rows - 1 := by omega
        rw [heq]
        exact hr
      exact List.getElem?_mem hidx
    rw [List.all_eq_true] at hclean
    have hfalse := hclean r hmem
    rw [hrc] at hfalse
    simp at hfalse

lemma isConfirmed_set_confirmed (r : Row) : isConfirmed (set_confirmed r) = true := by
  simp [isConfirmed, set_confirmed, sentinel]

lemma mark_upto_length (rows : List Row) (m : Nat) :
    (mark_orders_as_confirmed_upto rows m).length = rows.length := by
  unfold mark_orders_as_confirmed_upto
  generalize (new_order_rows rows).take m = ts
  induction ts generalizing rows with
  | nil => rfl
  | cons t ts ih =>
      rw [List.foldl_cons, ih]
      unfold update_cell_mark
      cases ht : rows[t - 2]? with
      | none => rfl
      | some r => simp [List.length_set]

/-- C2: after a partial commit that marked only the first `m` of the
fetched rows, a re-fetch returns exactly the unmarked remainder of the
fetched batch — the first conjunct gives the re-fetched slice, the
second shows the two fetches partition the original batch (each marked
row is never returned again and no row position is returned twice). -/
theorem claim2_refetch_after_partial_commit (rows : List Row) (m : Nat)
    (hm : m ≤ (get_new_orders rows).length) :
    get_new_orders (mark_orders_as_confirmed_upto rows m)
        = (get_new_orders rows).drop m
    ∧ (get_new_orders rows).take m
        ++ get_new_orders (mark_orders_as_confirmed_upto rows m)
        = get_new_orders rows := by
  have hlen : m ≤ rows.length - newStart rows := by
    have hm2 := hm
    unfold get_new_orders at hm2
    rw [List.length_drop] at hm2
    omega
  have hk := newStart_le_length rows
  have hMget := mark_upto_getElem? rows m hm
  have hMlen := mark_upto_length rows m
  have hdropM : (mark_orders_as_confirmed_upto rows m).drop (newStart rows + m)
      = rows.drop (newStart rows + m) := by
    apply List.ext_getElem?
    intro j
    rw [List.getElem?_drop, List.getElem?_drop, hMget]
    rw [if_neg (by omega)]
  have hnsM : newStart (mark_orders_as_confirmed_upto rows m) = newStart rows + m := by
    cases m with
    | zero =>
        have hMeq : mark_orders_as_confirmed_upto rows 0 = rows := by
          apply List.ext_getElem?
          intro j
          rw [hMget j, if_neg (by omega)]
        rw [hMeq]
        omega
    | succ m0 =>
        apply newStart_unique
        · rw [hMlen]
          omega
        · rw [hdropM]
          exact clean_of_newStart_le rows _ (by omega)
        · right
          have hidx : newStart rows + (m0 + 1) - 1 < rows.length := by omega
          obtain ⟨r, hr⟩ : ∃ r, rows[newStart rows + (m0 + 1) - 1]? = some r := by
            rw [List.getElem?_eq_getElem hidx]
            exact ⟨_, rfl⟩
          refine ⟨set_confirmed r, ?_, isConfirmed_set_confirmed r⟩
          rw [hMget, if_pos (by omega), hr]
          rfl
  have h1 : get_new_orders (mark_orders_as_confirmed_upto rows m)
      = (get_new_orders rows).drop m := by
    unfold get_new_orders
    rw [hnsM, hdropM, List.drop_drop]
  exact ⟨h1, by rw [h1]; exact List.take_append_drop m (get_new_orders rows)⟩

/-- A concrete unmarked row used in witnesses. -/
def rowA : Row :=
  { timestamp := ⟨⟨2024, 1, 1⟩, 10⟩
    bigo := ""
    senderName := "a", senderAddr := "b", senderPhone := "c"
    recipName := "d", recipAddr := "e", recipPhone := "f"
    productSelection := "5kg"
    qty5 := some "1"
    qty10 := none }

/-- A second concrete unmarked row used in witnesses. -/
def rowB : Row :=
  { timestamp := ⟨⟨2024, 1, 2⟩, 20⟩
    bigo := ""
    senderName := "g", senderAddr := "h", senderPhone := "i"
    recipName := "j", recipAddr := "k", recipPhone := "l"
    productSelection := "10kg"
    qty5 := none
    qty10 := some "2" }

/-- Witness for C2: in a concrete two-row table with no prior sentinel,
after marking only the first fetched row, a re-fetch returns exactly
the second row. -/
theorem claim2_refetch_after_partial_commit_witness :
    get_new_orders (mark_orders_as_confirmed_upto [rowA, rowB] 1)
        = (get_new_orders [rowA, rowB]).drop 1
    ∧ (get_new_orders [rowA, rowB]).take 1
        ++ get_new_orders (mark_orders_as_confirmed_upto [rowA, rowB] 1)
        = get_new_orders [rowA, rowB] :=
  claim2_refetch_after_partial_commit [rowA, rowB] 1 (by decide)

/-! ## MongoDBHandler.get_new_orders
    (src/handlers/mongo_handler.py lines 22-34)

`get_new_orders` runs `collection.find({"confirmed": {"$ne": True}})`:
it returns, in natural (insertion) order, every document whose
`confirmed` field is not `True` (missing or `False` both match `$ne`).
This is a set-based filter, not the positional after-the-last-sentinel
slice of the sheet variant. -/

/-- A stored document: the migrated row payload plus the boolean
`confirmed` marker field (`none` models a document without the field). -/
structure MongoDoc where
  confirmed : Option Bool
  payload : Row
deriving DecidableEq, Repr

/-- `list(self.collection.find({"confirmed": {"$ne": True}}))`. -/
def mongo_get_new_orders (docs : List MongoDoc) : List MongoDoc :=
  docs.filter (fun d => !(d.confirmed == some true))

/-- A document storing the same row and the same marker value: its
`confirmed` flag is `True` exactly when the row's '비고' marker equals
the sentinel (cf. `migrate_sheet_to_mongo.py`, which populates
`confirmed` alongside the sheet fields). -/
def docOfRow (r : Row) : MongoDoc :=
  { confirmed := some (isConfirmed r), payload := r }

/-- A sentinel-marked concrete row. -/
def rowM : Row := { rowB with bigo := sentinel }

/-- C6 counterexample: with the same rows and marker values stored — an
unmarked row followed by a marked row — the sheet variant returns no
rows (nothing follows the last sentinel) while the document variant
returns the unmarked first row, so the two `fetchNew` results differ. -/
theorem claim6_counterexample :
    ¬ ((mongo_get_new_orders ([rowA, rowM].map docOfRow)).map MongoDoc.payload
        = get_new_orders [rowA, rowM]) := by decide

/-- C6 (amended): the sheet variant computes the new subset as all rows
after the last sentinel-marked row, while the document variant returns
exactly the unconfirmed documents in order; the two agree whenever the
marked rows form a prefix of the table (the state maintained by the
normal fetch→commit cycle). -/
theorem claim6_variants_agree_when_marked_is_resolved (l1 l2 : List Row)
    (h1 : ∀ r ∈ l1, isConfirmed r = true)
    (h2 : ∀ r ∈ l2, isConfirmed r = false) :
    (mongo_get_new_orders ((l1 ++ l2).map docOfRow)).map MongoDoc.payload
      = get_new_orders (l1 ++ l2) := by
  have hmongo : mongo_get_new_orders ((l1 ++ l2).map docOfRow) = l2.map docOfRow := by
    unfold mongo_get_new_orders
    rw [List.map_append, List.filter_append]
    have hl1 : (l1.map docOfRow).filter (fun d => !(d.confirmed == some true)) = [] := by
      rw [List.filter_eq_nil_iff]
      intro d hd
      rw [List.mem_map] at hd
      obtain ⟨r, hr, rfl⟩ := hd
      simp [docOfRow, h1 r hr]
    have hl2 : (l2.map docOfRow).filter (fun d => !(d.confirmed == some true))
        = l2.map docOfRow := by
      rw [List.filter_eq_self]
      intro d hd
      rw [List.mem_map] at hd
      obtain ⟨r, hr, rfl⟩ := hd
      simp [docOfRow, h2 r hr]
    rw [hl1, hl2, List.nil_append]
  have hsheet : get_new_orders (l1 ++ l2) = l2 := by
    have hns : newStart (l1 ++ l2) = l1.length := by
      apply newStart_unique
      · rw [List.length_append]
        omega
      · rw [List.drop_left]
        rw [List.all_eq_true]
        intro r hr
        simp [h2 r hr]
      · cases l1 with
        | nil => left; rfl
        | cons a as =>
            right
            have hlt : (a :: as).length - 1 < (a :: as).length := by simp
            obtain ⟨r, hr⟩ : ∃ r, (a :: as)[(a :: as).length - 1]? = some r := by
              rw [List.getElem?_eq_getElem hlt]
              exact ⟨_, rfl⟩
            refine ⟨r, ?_, ?_⟩
            · rw [List.getElem?_append, if_pos hlt]
              exact hr
            · exact h1 r (List.getElem?_mem hr)
    unfold get_new_orders
    rw [hns, List.drop_left]
  rw [hmongo, hsheet, List.map_map]
  have hid : MongoDoc.payload ∘ docOfRow = id := rfl
  rw [hid, List.map_id]

/-- Witness for the amended C6 at a concrete table: one marked row then
one unmarked row; both variants return exactly the unmarked row. -/
theorem claim6_variants_agree_when_marked_is_resolved_witness :
    (mongo_get_new_orders (([rowM] ++ [rowA]).map docOfRow)).map MongoDoc.payload
      = get_new_orders ([rowM] ++ [rowA]) :=
  claim6_variants_agree_when_marked_is_resolved [rowM] [rowA] (by decide) (by decide)

/-! ## LabelFormatter.format_labels
    (src/formatters/label_formatter.py)

The formatter instance state (`self.total_5kg`, `self.total_10kg`) is
threaded as an explicit `Totals` value: `format_labels` takes the
incoming totals and returns the produced report together with the
totals left in the instance.  Number rendering (`str(int)` and the
`{…:,}` format) is embedded via structurally recursive digit functions
so that every definition evaluates. -/

/-- Decimal digit character (`d < 10` in every use). -/
def digit_char (d : Nat) : Char := Char.ofNat ('0'.toNat + d)

/-- Decimal digits of `n`, most significant first (fuel-driven so that
it evaluates; `fuel = n + 1` always suffices). -/
def natToDigitsAux : Nat → Nat → List Char
  | 0, _ => []
  | fuel + 1, n =>
      if n < 10 then [digit_char n]
      else natToDigitsAux fuel (n / 10) ++ [digit_char (n % 10)]

/-- Python `str(n)` for a non-negative integer. -/
def natToDigits (n : Nat) : List Char := natToDigitsAux (n + 1) n

/-- Python `str(n)` as a `String`. -/
def natRepr (n : Nat) : String := String.mk (natToDigits n)

/-- Digit groups of three, taken from the front. -/
def chunk3 : List Char → List (List Char)
  | [] => []
  | [a] => [[a]]
  | [a, b] => [[a, b]]
  | a :: b :: c :: rest => [a, b, c] :: chunk3 rest

/-- `','.join(...)` over character groups. -/
def joinComma : List (List Char) → List Char
  | [] => []
  | [g] => g
  | g :: g2 :: gs => g ++ ',' :: joinComma (g2 :: gs)

/-- Python `f"{n:,}"` for a non-negative integer: decimal digits with a
comma every three digits from the right. -/
def format_comma (n : Nat) : String :=
  String.mk ((joinComma (chunk3 (natToDigits n).reverse)).reverse)

/-- Remove every comma (used to state that the `{…:,}` rendering is the
plain integer with separators inserted). -/
def stripCommas (s : String) : String :=
  String.mk (s.data.filter (fun c => c != ','))

/-- `c * n` for strings (`"=" * 39` etc.). -/
def repChar (c : Char) (n : Nat) : String := String.mk (List.replicate n c)

def pad2 (n : Nat) : String := if n < 10 then zero_str ++ natRepr n else natRepr n

def pad4 (n : Nat) : String :=
  if n < 10 then "000" ++ natRepr n
  else if n < 100 then "00" ++ natRepr n
  else if n < 1000 then zero_str ++ natRepr n
  else natRepr n

/-- Python `str(datetime.date)`: `YYYY-MM-DD`. -/
def Date.toStr (d : Date) : String :=
  pad4 d.year ++ hyphen_str ++ pad2 d.month ++ hyphen_str ++ pad2 d.day

/-- Python `pat in s` (substring containment). -/
def containsAux (pat : List Char) : List Char → Bool
  | [] => pat == []
  | c :: cs => pat.isPrefixOf (c :: cs) || containsAux pat cs

/-- `'5kg' in product_selection` etc. -/
def pyContains (s pat : String) : Bool := containsAux pat.data s.data

/-- The two running totals of the formatter instance. -/
structure Totals where
  total_5kg : Nat
  total_10kg : Nat
deriving DecidableEq, Repr

/-- The configuration consumed by the formatter: `PRODUCT_PRICES` (fixed
to 20000/35000 in config.py) and the `DEFAULT_SENDER` triple (loaded
from the environment). -/
structure LabelConfig where
  price5 : Nat := 20000
  price10 : Nat := 35000
  defaultSenderAddress : String := ""
  defaultSenderName : String := ""
  defaultSenderPhone : String := ""
deriving DecidableEq, Repr

/-- Stable insertion of a row into a timestamp-sorted list (the earlier
row goes first on equal keys). -/
def orderedInsertRow (a : Row) : List Row → List Row
  | [] => [a]
  | x :: xs =>
      if a.timestamp.key ≤ x.timestamp.key then a :: x :: xs
      else x :: orderedInsertRow a xs

/-- `df.sort_values('타임스탬프')`: sort by timestamp ascending (stable). -/
def sort_values : List Row → List Row
  | [] => []
  | a :: as => orderedInsertRow a (sort_values as)

/-- Insertion into a key list sorted by `le`. -/
def orderedInsertKey {K : Type} (le : K → K → Bool) (a : K) : List K → List K
  | [] => [a]
  | b :: bs => if le a b then a :: b :: bs else b :: orderedInsertKey le a bs

/-- Sorting a key list by `le`. -/
def sortKeys {K : Type} (le : K → K → Bool) : List K → List K
  | [] => []
  | a :: as => orderedInsertKey le a (sortKeys le as)

/-- pandas `df.groupby(key)` with its default `sort=True`: one group per
distinct key, iterated in ascending key order, each group holding all
rows with that key in their original relative order.  Rows with equal
keys are merged into a single group no matter how they interleave. -/
def groupby {α K : Type} [DecidableEq K] (key : α → K) (le : K → K → Bool)
    (rows : List α) : List (K × List α) :=
  (sortKeys le (rows.map key).dedup).map
    (fun k => (k, rows.filter (fun r => decide (key r = k))))

/-- Code-point lexicographic comparison of character lists. -/
def listCharLt : List Char → List Char → Bool
  | [], [] => false
  | [], _ :: _ => true
  | _ :: _, [] => false
  | a :: as, b :: bs =>
      if a.toNat < b.toNat then true
      else if b.toNat < a.toNat then false
      else listCharLt as bs

/-- Python `a < b` on strings (code-point lexicographic). -/
def strLt (a b : String) : Bool := listCharLt a.data b.data

def strLe (a b : String) : Bool := strLt a b || a == b

/-- The sender-identity tuple ('보내는분 성함', '보내는분 주소 (도로명
주소로 부탁드려요)', '보내는분 연락처 (핸드폰번호)'). -/
def senderKey (r : Row) : String × String × String :=
  (r.senderName, r.senderAddr, r.senderPhone)

/-- Python tuple comparison on the sender tuple (what pandas sorts the
group keys by). -/
def senderLe (a b : String × String × String) : Bool :=
  strLt a.1 b.1
    || (a.1 == b.1
        && (strLt a.2.1 b.2.1 || (a.2.1 == b.2.1 && strLe a.2.2 b.2.2)))

def dateLe (a b : Date) : Bool := decide (a.key ≤ b.key)

def send_header : String := "보내는사람\n"

def recv_header : String := "받는사람\n"

def product_header : String := "주문상품\n"

def five_kg : String := "5kg"

def ten_kg : String := "10kg"

def sp : String := " "

def nl : String := "\n"

def nl2 : String := "\n\n"

def slash_str : String := " / "

def box_nl : String := "박스\n\n"

def no_new_orders_msg : String := "새로운 주문이 없습니다."

def date_hdr_l : String := "=== "

def date_hdr_r : String := " ===\n"

def date_sep : String := repChar '=' 39 ++ nl2

def summary_bar : String := repChar '=' 50 ++ nl

def summary_title : String := "주문 요약\n"

def dash20 : String := repChar '-' 20 ++ nl

def sum5_l : String := "5kg 주문: "

def sum10_l : String := "10kg 주문: "

def box_open : String := "박스 ("

def won_close : String := "원)\n"

def total_l : String := "총 주문금액: "

def won_nl : String := "원\n"

/-- `LabelFormatter._is_valid_sender` (lines 106-111): all three fields
non-blank after stripping (`pd.notna` is always true on a string). -/
def is_valid_sender (nm addr phone : String) : Bool :=
  (pyStrip nm != empty_str) && (pyStrip addr != empty_str)
    && (pyStrip phone != empty_str)

/-- `LabelFormatter._format_recipient` (lines 79-104): the recipient
block, the product block, and the totals update.  `'5kg' in …` is
checked before `'10kg' in …`; when neither token matches, no product
line is emitted and the totals are unchanged. -/
def format_recipient (st : Totals) (row : Row) : List String × Totals :=
  let ph := format_phone_number row.recipPhone
  let labels := [recv_header,
    row.recipAddr ++ sp ++ row.recipName ++ sp ++ ph ++ nl,
    product_header]
  let quantity := get_quantity row
  if pyContains row.productSelection five_kg then
    (labels ++ [five_kg ++ slash_str ++ natRepr quantity ++ box_nl],
     { st with total_5kg := st.total_5kg + quantity })
  else if pyContains row.productSelection ten_kg then
    (labels ++ [ten_kg ++ slash_str ++ natRepr quantity ++ box_nl],
     { st with total_10kg := st.total_10kg + quantity })
  else (labels, st)

/-- `LabelFormatter._format_sender_group` (lines 58-77). -/
def format_sender_group (cfg : LabelConfig) (st : Totals)
    (sender_info : String × String × String) (sender_group : List Row) :
    List String × Totals :=
  let sender_name := sender_info.1
  let sender_address := sender_info.2.1
  let sender_phone := sender_info.2.2
  let head :=
    if is_valid_sender sender_name sender_address sender_phone then
      sender_address ++ sp ++ sender_name ++ sp
        ++ format_phone_number sender_phone ++ nl2
    else
      cfg.defaultSenderAddress ++ sp ++ cfg.defaultSenderName ++ sp
        ++ cfg.defaultSenderPhone ++ nl2
  sender_group.foldl
    (fun acc row =>
      let res := format_recipient acc.2 row
      (acc.1 ++ res.1, res.2))
    ([send_header, head], st)

/-- `"".join(formatted_labels)`: concatenation of the collected pieces. -/
def strConcat (l : List String) : String :=
  String.mk ((l.map String.data).flatten)

/-- The fixed summary block appended after all date sections
(lines 46-54): box counts, each multiplied by its configured unit
price, then the grand total, all currency figures in `{…:,}` format. -/
def summary_block (cfg : LabelConfig) (st : Totals) : List String :=
  [summary_bar, summary_title, dash20,
   sum5_l ++ natRepr st.total_5kg ++ box_open
     ++ format_comma (st.total_5kg * cfg.price5) ++ won_close,
   sum10_l ++ natRepr st.total_10kg ++ box_open
     ++ format_comma (st.total_10kg * cfg.price10) ++ won_close,
   dash20,
   total_l ++ format_comma (st.total_5kg * cfg.price5
     + st.total_10kg * cfg.price10) ++ won_nl]

/-- The main rendering pass of `format_labels` (lines 20-43): totals
reset to zero, rows sorted by timestamp, grouped by calendar date in
ascending order, within each date grouped by the sender tuple, a `"\n"`
separator before every sender block but the first, and a date separator
after each date section. -/
def format_labels_body (cfg : LabelConfig) (df : List Row) : List String × Totals :=
  let sorted := sort_values df
  (groupby (fun r => r.timestamp.date) dateLe sorted).foldl
    (fun acc dg =>
      let labels1 := acc.1 ++ [date_hdr_l ++ Date.toStr dg.1 ++ date_hdr_r]
      let inner := (groupby senderKey senderLe dg.2).foldl
        (fun acc2 sg =>
          let labels2 := if acc2.2.2 then acc2.1 else acc2.1 ++ [nl]
          let res2 := format_sender_group cfg acc2.2.1 sg.1 sg.2
          (labels2 ++ res2.1, (res2.2, false)))
        (labels1, (acc.2, true))
      (inner.1 ++ [date_sep], inner.2.1))
    (([] : List String), (⟨0, 0⟩ : Totals))

/-- `LabelFormatter.format_labels` (lines 12-56): the early return for
an empty batch leaves the instance totals untouched; otherwise the
totals are reset, the body runs, and the summary block is appended. -/
def format_labels (cfg : LabelConfig) (st : Totals) (df : List Row) :
    String × Totals :=
  if df.isEmpty then (no_new_orders_msg, st)
  else
    let res := format_labels_body cfg df
    (strConcat (res.1 ++ summary_block cfg res.2), res.2)

/-! ## Claim C9: render is safe to repeat -/

/-- C9: `format_labels` is safe to repeat: calling it again with the
totals state left by a first call (same instance) returns the identical
string-and-state pair, and the returned string never depends on the
incoming totals, because the two running totals are reset to zero at
the start of each non-empty render before any accumulation (the pure
embedding leaves the input rows unchanged by construction). -/
theorem claim9_format_labels_repeatable (cfg : LabelConfig) (st : Totals)
    (df : List Row) :
    format_labels cfg ((format_labels cfg st df).2) df = format_labels cfg st df
    ∧ ∀ st2 : Totals, (format_labels cfg st2 df).1 = (format_labels cfg st df).1 := by
  cases h : df.isEmpty with
  | true =>
      constructor
      · simp [format_labels, h]
      · intro st2
        simp [format_labels, h]
  | false =>
      constructor
      · simp [format_labels, h]
      · intro st2
        simp [format_labels, h]

/-! ## Claim C8: the summary block -/

lemma strConcat_append (a b : List String) :
    strConcat (a ++ b) = strConcat a ++ strConcat b := by
  unfold strConcat
  rw [List.map_append, List.flatten_append]
  rfl

lemma chunk3_flatten : ∀ l : List Char, (chunk3 l).flatten = l
  | [] => by simp [chunk3]
  | [a] => by simp [chunk3]
  | [a, b] => by simp [chunk3]
  | a :: b :: c :: rest => by
      simp [chunk3, chunk3_flatten rest]

lemma filter_joinComma : ∀ gs : List (List Char),
    (∀ g ∈ gs, ∀ c ∈ g, (c != ',') = true) →
    (joinComma gs).filter (fun c => c != ',') = gs.flatten
  | [] => by
      intro h
      simp [joinComma]
  | [g] => by
      intro h
      simp only [joinComma, List.flatten_cons, List.flatten_nil, List.append_nil]
      exact List.filter_eq_self.mpr (h g (by simp))
  | g :: g2 :: gs => by
      intro h
      have hg : g.filter (fun c => c != ',') = g :=
        List.filter_eq_self.mpr (h g (by simp))
      have hrec := filter_joinComma (g2 :: gs)
        (by
          intro g2 hg2 c hc
          exact h g2 (List.mem_cons_of_mem g hg2) c hc)
      simp only [joinComma, List.filter_append, List.filter_cons, List.flatten_cons, hg]
      rw [hrec]
      simp

lemma natToDigitsAux_no_comma : ∀ (fuel n : Nat), ∀ c ∈ natToDigitsAux fuel n,
    (c != ',') = true := by
  intro fuel
  induction fuel with
  | zero =>
      intro n c hc
      simp [natToDigitsAux] at hc
  | succ fuel ih =>
      intro n c hc
      rw [natToDigitsAux] at hc
      by_cases h10 : n < 10
      · rw [if_pos h10] at hc
        rw [List.mem_singleton] at hc
        subst hc
        interval_cases n <;> decide
      · rw [if_neg h10] at hc
        rw [List.mem_append] at hc
        rcases hc with hc | hc
        · exact ih (n / 10) c hc
        · rw [List.mem_singleton] at hc
          subst hc
          have hm : n % 10 < 10 := Nat.mod_lt _ (by omega)
          revert hm
          generalize n % 10 = m
          intro hm
          interval_cases m <;> decide

lemma mem_chunk3_subset (l : List Char) (g : List Char) (hg : g ∈ chunk3 l)
    (c : Char) (hc : c ∈ g) : c ∈ l := by
  rw [← chunk3_flatten l]
  exact List.mem_flatten.mpr ⟨g, hg, hc⟩

/-- `{n:,}` is exactly `str(n)` with commas inserted: stripping the
commas recovers the plain decimal rendering (an integer, no fractional
part). -/
lemma stripCommas_format_comma (n : Nat) : stripCommas (format_comma n) = natRepr n := by
  unfold stripCommas format_comma natRepr
  apply congrArg String.mk
  show ((joinComma (chunk3 (natToDigits n).reverse)).reverse).filter (fun c => c != ',')
      = natToDigits n
  rw [List.filter_reverse]
  rw [filter_joinComma]
  · rw [chunk3_flatten, List.reverse_reverse]
  · intro g hg c hc
    have hmem : c ∈ (natToDigits n).reverse := mem_chunk3_subset _ g hg c hc
    rw [List.mem_reverse] at hmem
    exact natToDigitsAux_no_comma (n + 1) n c hmem

/-- C8: for every non-empty batch, the rendered report ends with the
summary block; that block shows, for each size, the accumulated box
count multiplied by the configured unit price, and a grand total that
is exactly the sum of the two products; and every currency figure is
the thousands-separated rendering of a plain integer. -/
theorem claim8_summary_products_and_grand_total (cfg : LabelConfig) (st : Totals)
    (df : List Row) (h : df ≠ []) :
    (∃ pre : String,
        (format_labels cfg st df).1
          = pre ++ strConcat (summary_block cfg (format_labels cfg st df).2))
    ∧ summary_block cfg (format_labels cfg st df).2
        = [summary_bar, summary_title, dash20,
           sum5_l ++ natRepr (format_labels cfg st df).2.total_5kg ++ box_open
             ++ format_comma ((format_labels cfg st df).2.total_5kg * cfg.price5)
             ++ won_close,
           sum10_l ++ natRepr (format_labels cfg st df).2.total_10kg ++ box_open
             ++ format_comma ((format_labels cfg st df).2.total_10kg * cfg.price10)
             ++ won_close,
           dash20,
           total_l ++ format_comma ((format_labels cfg st df).2.total_5kg * cfg.price5
             + (format_labels cfg st df).2.total_10kg * cfg.price10) ++ won_nl]
    ∧ (∀ n : Nat, stripCommas (format_comma n) = natRepr n) := by
  have hne : df.isEmpty = false := by
    cases df with
    | nil => exact absurd rfl h
    | cons a l => rfl
  refine ⟨⟨strConcat (format_labels_body cfg df).1, ?_⟩, rfl, fun n => stripCommas_format_comma n⟩
  simp only [format_labels, hne, Bool.false_eq_true, if_false]
  exact strConcat_append _ _

/-- Witness for C8: the theorem instantiated at a concrete two-row
batch (one 5kg order, one 10kg order) with non-zero stale totals. -/
theorem claim8_summary_products_and_grand_total_witness :
    ∃ pre : String,
      (format_labels {} ⟨7, 7⟩ [rowA, rowB]).1
        = pre ++ strConcat (summary_block {} (format_labels {} ⟨7, 7⟩ [rowA, rowB]).2) :=
  (claim8_summary_products_and_grand_total {} ⟨7, 7⟩ [rowA, rowB] (by simp)).1

/-! ## Claim C3: sender grouping within a date -/

lemma orderedInsertKey_perm {K : Type} (le : K → K → Bool) (a : K) (l : List K) :
    (orderedInsertKey le a l).Perm (a :: l) := by
  induction l with
  | nil => exact List.Perm.refl _
  | cons b bs ih =>
      unfold orderedInsertKey
      by_cases h : le a b
      · rw [if_pos h]
      · rw [if_neg h]
        exact (ih.cons b).trans (List.Perm.swap a b bs)

lemma sortKeys_perm {K : Type} (le : K → K → Bool) (l : List K) :
    (sortKeys le l).Perm l := by
  induction l with
  | nil => exact List.Perm.refl _
  | cons a as ih =>
      exact (orderedInsertKey_perm le a (sortKeys le as)).trans (ih.cons a)

lemma char_eq_of_toNat_eq (x y : Char) (h : x.toNat = y.toNat) : x = y :=
  Char.ext (UInt32.ext h)

lemma listCharLt_trichotomy : ∀ a b : List Char,
    listCharLt a b = true ∨ listCharLt b a = true ∨ a = b
  | [], [] => Or.inr (Or.inr rfl)
  | [], _ :: _ => Or.inl rfl
  | _ :: _, [] => Or.inr (Or.inl rfl)
  | x :: xs, y :: ys => by
      rcases Nat.lt_trichotomy x.toNat y.toNat with h | h | h
      · left
        unfold listCharLt
        rw [if_pos h]
      · rcases listCharLt_trichotomy xs ys with h2 | h2 | h2
        · left
          unfold listCharLt
          rw [if_neg (by omega), if_neg (by omega)]
          exact h2
        · right
          left
          unfold listCharLt
          rw [if_neg (by omega), if_neg (by omega)]
          exact h2
        · right
          right
          rw [char_eq_of_toNat_eq x y h, h2]
      · right
        left
        unfold listCharLt
        rw [if_pos h]

lemma strLt_trichotomy (a b : String) :
    strLt a b = true ∨ strLt b a = true ∨ a = b := by
  rcases listCharLt_trichotomy a.data b.data with h | h | h
  · exact Or.inl h
  · exact Or.inr (Or.inl h)
  · right
    right
    cases a with
    | mk la =>
        cases b with
        | mk lb => exact congrArg String.mk h

/-- Python tuple comparison on sender tuples is total. -/
lemma senderLe_total (a b : String × String × String) :
    senderLe a b = true ∨ senderLe b a = true := by
  obtain ⟨a1, a2, a3⟩ := a
  obtain ⟨b1, b2, b3⟩ := b
  rcases strLt_trichotomy a1 b1 with h | h | h
  · left
    simp [senderLe, h]
  · right
    simp [senderLe, h]
  · subst h
    rcases strLt_trichotomy a2 b2 with h2 | h2 | h2
    · left
      simp [senderLe, h2]
    · right
      simp [senderLe, h2]
    · subst h2
      rcases strLt_trichotomy a3 b3 with h3 | h3 | h3
      · left
        simp [senderLe, strLe, h3]
      · right
        simp [senderLe, strLe, h3]
      · subst h3
        left
        simp [senderLe, strLe]

lemma orderedInsertKey_chain {K : Type} (le : K → K → Bool)
    (htot : ∀ a b, le a b = true ∨ le b a = true) (a : K) :
    ∀ l : List K, l.Chain' (fun x y => le x y = true) →
      (orderedInsertKey le a l).Chain' (fun x y => le x y = true)
  | [], _ => by simp [orderedInsertKey]
  | b :: bs, hl => by
      unfold orderedInsertKey
      by_cases h : le a b
      · rw [if_pos h]
        exact List.chain'_cons.mpr ⟨h, hl⟩
      · rw [if_neg h]
        have hba : le b a = true := by
          rcases htot a b with h1 | h1
          · exact absurd h1 h
          · exact h1
        have hins := orderedInsertKey_chain le htot a bs hl.tail
        cases bs with
        | nil =>
            simp only [orderedInsertKey]
            exact List.chain'_cons.mpr ⟨hba, List.chain'_singleton a⟩
        | cons c cs =>
            unfold orderedInsertKey at hins ⊢
            by_cases h2 : le a c
            · rw [if_pos h2] at hins ⊢
              exact List.chain'_cons.mpr ⟨hba, hins⟩
            · rw [if_neg h2] at hins ⊢
              exact List.chain'_cons.mpr ⟨(List.chain'_cons.mp hl).1, hins⟩

/-- Insertion sort by a total `le` yields an ascending chain. -/
lemma sortKeys_chain {K : Type} (le : K → K → Bool)
    (htot : ∀ a b, le a b = true ∨ le b a = true) :
    ∀ l : List K, (sortKeys le l).Chain' (fun x y => le x y = true)
  | [] => by simp [sortKeys]
  | a :: as => orderedInsertKey_chain le htot a (sortKeys le as)
      (sortKeys_chain le htot as)

/-- C3 (amended): within a date, the code's sender grouping
(`date_group.groupby([...])`, pandas default `sort=True`) emits exactly
one sender block per distinct sender-identity tuple — rows with an
identical sender tuple are merged into a single block even when
interleaved with a different sender — each block holding all of that
sender's rows in original relative order, with blocks iterated in
key-sorted order rather than first-encountered order. -/
theorem claim3_one_block_per_distinct_sender (rows : List Row) :
    ((groupby senderKey senderLe rows).map Prod.fst).Nodup
    ∧ ((groupby senderKey senderLe rows).map Prod.fst).Chain'
        (fun a b => senderLe a b = true)
    ∧ (∀ k, k ∈ (groupby senderKey senderLe rows).map Prod.fst
        ↔ k ∈ rows.map senderKey)
    ∧ (∀ p ∈ groupby senderKey senderLe rows,
        p.2 = rows.filter (fun r => decide (senderKey r = p.1))) := by
  have hmap : (groupby senderKey senderLe rows).map Prod.fst
      = sortKeys senderLe (rows.map senderKey).dedup := by
    unfold groupby
    rw [List.map_map]
    exact List.map_id'' (fun k => rfl) _
  have hperm := sortKeys_perm senderLe (rows.map senderKey).dedup
  refine ⟨?_, ?_, ?_, ?_⟩
  · rw [hmap]
    exact hperm.nodup_iff.mpr (List.nodup_dedup _)
  · rw [hmap]
    exact sortKeys_chain senderLe senderLe_total _
  · intro k
    rw [hmap, hperm.mem_iff, List.mem_dedup]
  · intro p hp
    unfold groupby at hp
    rw [List.mem_map] at hp
    obtain ⟨k, hk, rfl⟩ := hp
    rfl

/-- Number of occurrences of `pat` in a character list. -/
def countOcc (pat : List Char) : List Char → Nat
  | [] => 0
  | c :: cs => (if pat.isPrefixOf (c :: cs) then 1 else 0) + countOcc pat cs

/-- First interleaved row: sender 박영희 (sorts after 김철수 but is
encountered first). -/
def rowG1 : Row :=
  { timestamp := ⟨⟨2024, 3, 1⟩, 100⟩
    bigo := ""
    senderName := "박영희", senderAddr := "부산", senderPhone := "01033334444"
    recipName := "이영수", recipAddr := "인천", recipPhone := "01012345678"
    productSelection := "5kg"
    qty5 := some "2"
    qty10 := none }

/-- Second interleaved row: a different sender, 김철수, encountered
second but first in sorted key order. -/
def rowG2 : Row :=
  { timestamp := ⟨⟨2024, 3, 1⟩, 200⟩
    bigo := ""
    senderName := "김철수", senderAddr := "서울", senderPhone := "01011112222"
    recipName := "최민준", recipAddr := "대구", recipPhone := "01056785678"
    productSelection := "10kg"
    qty5 := none
    qty10 := some "3" }

/-- Third row: identical sender tuple to `rowG1`, after the interleaving row. -/
def rowG3 : Row :=
  { timestamp := ⟨⟨2024, 3, 1⟩, 300⟩
    bigo := ""
    senderName := "박영희", senderAddr := "부산", senderPhone := "01033334444"
    recipName := "정하늘", recipAddr := "광주", recipPhone := "01099998888"
    productSelection := "5kg"
    qty5 := some "1"
    qty10 := none }

set_option maxRecDepth 8000 in
/-- C3 counterexample: three same-date rows whose senders interleave as
A, B, A, with A (박영희) sorting after B (김철수).  The claim requires
three sender blocks in first-encountered order (A, B, A); the code's
grouping merges the two A rows into one group, iterates two groups in
key-sorted order [B, A] — not first-encountered order [A, B] — and the
rendered report contains only two sender-block headers. -/
theorem claim3_counterexample :
    (groupby senderKey senderLe [rowG1, rowG2, rowG3]).map Prod.fst
        = [senderKey rowG2, senderKey rowG1]
    ∧ (groupby senderKey senderLe [rowG1, rowG2, rowG3]).map Prod.fst
        ≠ [senderKey rowG1, senderKey rowG2]
    ∧ groupby senderKey senderLe [rowG1, rowG2, rowG3]
        ≠ [(senderKey rowG1, [rowG1]), (senderKey rowG2, [rowG2]),
           (senderKey rowG1, [rowG3])]
    ∧ countOcc send_header.data
        ((format_labels {} ⟨0, 0⟩ [rowG1, rowG2, rowG3]).1).data = 2 := by
  refine ⟨by decide, by decide, by decide, ?_⟩
  decide

/-! ## Exceptions (src/exceptions/exceptions.py) and the orchestrator
    (src/main.py, OrderManagementSystem.process_new_orders, lines 17-41) -/

/-- The raised exception kinds relevant to a run (each carries its
message, cf. src/exceptions/exceptions.py and mongo_handler's
DatabaseError). -/
inductive OrderError where
  | SpreadsheetError (msg : String)
  | DataParsingError (msg : String)
  | DatabaseError (msg : String)
deriving DecidableEq, Repr

def OrderError.message : OrderError → String
  | .SpreadsheetError m => m
  | .DataParsingError m => m
  | .DatabaseError m => m

/-- `print(f"오류 발생: {str(e)}", file=sys.stderr)`. -/
def error_out (e : OrderError) : String := "오류 발생: " ++ e.message

/-- The observable outcome of one `process_new_orders` run: the table
state after the run, whether the commit step was entered, the process
exit status (1 via `sys.exit(1)` on any exception, else 0), and the
console output. -/
structure RunResult where
  table : List Row
  commit_called : Bool
  exit_code : Nat
  stdout : List String
  stderr : List String := []
deriving DecidableEq, Repr

/-- Shallow embedding of `OrderManagementSystem.process_new_orders`
(src/main.py lines 17-41).  The effectful collaborators are passed as
outcomes: `fetch` is what `sheet_handler.get_new_orders()` did, `render`
what `label_formatter.format_labels` does on a batch, and `commit`
returns the table left by `mark_orders_as_confirmed` together with the
exception it raised, if any (a raised commit error still leaves its
partial writes in the table).  Both `except` arms print to stderr and
`sys.exit(1)`. -/
def process_new_orders (table : List Row)
    (fetch : Except OrderError (List Row))
    (render : List Row → Except OrderError String)
    (commit : List Row → List Row × Option OrderError) : RunResult :=
  match fetch with
  | .error e =>
      { table := table, commit_called := false, exit_code := 1,
        stdout := [], stderr := [error_out e] }
  | .ok new_orders =>
      if !new_orders.isEmpty then
        match render new_orders with
        | .error e =>
            { table := table, commit_called := false, exit_code := 1,
              stdout := [], stderr := [error_out e] }
        | .ok formatted_labels =>
            match commit table with
            | (table2, some e) =>
                { table := table2, commit_called := true, exit_code := 1,
                  stdout := [formatted_labels], stderr := [error_out e] }
            | (table2, none) =>
                { table := table2, commit_called := true, exit_code := 0,
                  stdout := [formatted_labels] }
      else
        { table := table, commit_called := false, exit_code := 0,
          stdout := [no_new_orders_msg] }

/-- C5: the commit step is entered only when the fetch returned a
non-empty batch and its render returned normally; an exception in
fetching or rendering yields the failed exit (status 1) with the table
— hence every row marker — left exactly as it was. -/
theorem claim5_commit_only_after_successful_render (table : List Row)
    (fetch : Except OrderError (List Row))
    (render : List Row → Except OrderError String)
    (commit : List Row → List Row × Option OrderError) :
    ((process_new_orders table fetch render commit).commit_called = true →
      ∃ rows s, fetch = Except.ok rows ∧ rows ≠ [] ∧ render rows = Except.ok s)
    ∧ (∀ e, fetch = Except.error e →
        process_new_orders table fetch render commit
          = { table := table, commit_called := false, exit_code := 1,
              stdout := [], stderr := [error_out e] })
    ∧ (∀ rows e, fetch = Except.ok rows → rows ≠ [] →
        render rows = Except.error e →
        process_new_orders table fetch render commit
          = { table := table, commit_called := false, exit_code := 1,
              stdout := [], stderr := [error_out e] }) := by
  refine ⟨?_, ?_, ?_⟩
  · intro hc
    cases hf : fetch with
    | error e =>
        rw [hf] at hc
        simp [process_new_orders] at hc
    | ok rows =>
        rw [hf] at hc
        by_cases hne : rows.isEmpty
        · simp [process_new_orders, hne] at hc
        · cases hr : render rows with
          | error e =>
              rw [Bool.not_eq_true] at hne
              simp [process_new_orders, hne, hr] at hc
          | ok s =>
              refine ⟨rows, s, rfl, ?_, hr⟩
              intro hnil
              subst hnil
              exact hne rfl
  · intro e hf
    subst hf
    rfl
  · intro rows e hf hne hr
    subst hf
    have hne2 : rows.isEmpty = false := by
      cases rows with
      | nil => exact absurd rfl hne
      | cons a l => rfl
    simp [process_new_orders, hne2, hr]

/-- Witness for C5: with a successful one-row fetch and a successful
render the commit step runs, and with a failing render the failed exit
leaves the table unchanged — both at concrete inputs. -/
theorem claim5_commit_only_after_successful_render_witness :
    (∃ rows s, (Except.ok [rowA] : Except OrderError (List Row)) = Except.ok rows
      ∧ rows ≠ []
      ∧ (fun _ : List Row => (Except.ok "out" : Except OrderError String)) rows
          = Except.ok s)
    ∧ process_new_orders [rowA]
        (Except.ok [rowA])
        (fun _ => Except.error (OrderError.SpreadsheetError "boom"))
        (fun t => (t, none))
        = { table := [rowA], commit_called := false, exit_code := 1,
            stdout := [], stderr := [error_out (OrderError.SpreadsheetError "boom")] } :=
  ⟨(claim5_commit_only_after_successful_render [rowA] (Except.ok [rowA])
      (fun _ => Except.ok "out") (fun t => (t, none))).1 rfl,
   (claim5_commit_only_after_successful_render [rowA] (Except.ok [rowA])
      (fun _ => Except.error (OrderError.SpreadsheetError "boom"))
      (fun t => (t, none))).2.2 [rowA] (OrderError.SpreadsheetError "boom")
      rfl (by simp) rfl⟩

/-! ## GoogleSheetHandler._validate_required_columns and the
    record-level fetch (src/handlers/sheet_handler.py lines 57-98)

`get_all_records()` yields one field-name→value mapping per data row;
`pd.DataFrame(data)` over zero records produces a frame with no columns
at all, so `_validate_required_columns` reports every required column
as missing before any checkpoint logic runs. -/

def ts_col : String := "타임스탬프"

def bigo_col : String := "비고"

/-- `Config.REQUIRED_COLUMNS` (src/config/config.py lines 40-51). -/
def REQUIRED_COLUMNS : List String :=
  ["타임스탬프", "비고",
   "보내는분 성함", "보내는분 주소 (도로명 주소로 부탁드려요)", "보내는분 연락처 (핸드폰번호)",
   "받으실분 성함", "받으실분 주소 (도로명 주소로 부탁드려요)", "받으실분 연락처 (핸드폰번호)",
   "상품 선택", "수량"]

def comma_sp : String := ", "

/-- Python `sep.join(parts)`. -/
def pyJoin (sep : String) : List String → String
  | [] => ""
  | [s] => s
  | s :: s2 :: rest => s ++ sep ++ pyJoin sep (s2 :: rest)

/-- The `DataParsingError` message of `_validate_required_columns`
(lines 62-66). -/
def missing_columns_msg (missing required : List String) : String :=
  "스프레드시트에 필수 컬럼이 없습니다: " ++ pyJoin comma_sp missing
    ++ nl ++ "필요한 컬럼: " ++ pyJoin comma_sp required

/-- `pd.DataFrame(data).columns`, at the granularity the validator
consumes (membership): the keys appearing in the records.  Zero records
give zero columns. -/
def df_columns (data : List (List (String × String))) : List String :=
  (data.map (fun rec => rec.map Prod.fst)).flatten

/-- `GoogleSheetHandler._validate_required_columns` (lines 57-66). -/
def validate_required_columns (required cols : List String) :
    Except OrderError Unit :=
  let missing := required.filter (fun c => !cols.contains c)
  if missing.isEmpty then Except.ok ()
  else Except.error (OrderError.DataParsingError (missing_columns_msg missing required))

/-- The in-place `df['타임스탬프'] = df['타임스탬프'].apply(...)` on one
record, with the parser (which may raise `DataParsingError`) passed in. -/
def apply_timestamp_parse (p : String → Except OrderError String) :
    List (String × String) → Except OrderError (List (String × String))
  | [] => Except.ok []
  | (k, v) :: rest => do
      let v2 ← if k == ts_col then p v else Except.ok v
      let rest2 ← apply_timestamp_parse p rest
      Except.ok ((k, v2) :: rest2)

/-- `row['비고'] == '확인'` at record level. -/
def isConfirmedRec (rec : List (String × String)) : Bool :=
  ((rec.lookup bigo_col).getD empty_str) == sentinel

/-- `df[df['비고'] == '확인'].index` at record level. -/
def confirmed_index_rec : List (List (String × String)) → List Nat
  | [] => []
  | rec :: rest =>
      if isConfirmedRec rec then 0 :: (confirmed_index_rec rest).map (· + 1)
      else (confirmed_index_rec rest).map (· + 1)

/-- `GoogleSheetHandler.get_new_orders` from the raw records on
(lines 72-91): build the frame, validate the required columns, parse
the timestamp column when present, and slice past the last sentinel. -/
def get_new_orders_records (p : String → Except OrderError String)
    (data : List (List (String × String))) :
    Except OrderError (List (List (String × String))) := do
  match validate_required_columns REQUIRED_COLUMNS (df_columns data) with
  | .error e => Except.error e
  | .ok _ => do
      let data2 ←
        if (df_columns data).contains ts_col then
          data.mapM (apply_timestamp_parse p)
        else
          pure data
      let last := ((confirmed_index_rec data2).map Int.ofNat).getLastD (-1)
      pure (data2.drop (last + 1).toNat)

/-- C10: on a backing table with zero data rows the sheet fetch does
not return an empty batch: the frame has no columns, the schema check
raises `DataParsingError` naming every required column, and a run with
that fetch outcome exits with status 1 without printing the
"새로운 주문이 없습니다." message (and without committing). -/
theorem claim10_empty_table_is_schema_error
    (p : String → Except OrderError String) :
    get_new_orders_records p []
        = Except.error (OrderError.DataParsingError
            (missing_columns_msg REQUIRED_COLUMNS REQUIRED_COLUMNS))
    ∧ (∀ batch : List (List (String × String)),
        get_new_orders_records p [] ≠ Except.ok batch)
    ∧ (∀ (table : List Row) (render : List Row → Except OrderError String)
        (commit : List Row → List Row × Option OrderError),
        let res := process_new_orders table
          (Except.error (OrderError.DataParsingError
            (missing_columns_msg REQUIRED_COLUMNS REQUIRED_COLUMNS)))
          render commit
        res.exit_code = 1 ∧ res.commit_called = false
          ∧ res.stdout ≠ [no_new_orders_msg]) := by
  refine ⟨rfl, ?_, ?_⟩
  · intro batch
    intro hcontra
    have herr : get_new_orders_records p []
        = Except.error (OrderError.DataParsingError
            (missing_columns_msg REQUIRED_COLUMNS REQUIRED_COLUMNS)) := rfl
    rw [herr] at hcontra
    exact Except.noConfusion hcontra
  · intro table render commit
    refine ⟨rfl, rfl, ?_⟩
    intro hcontra
    exact List.noConfusion hcontra
